import Mathlib

/-!
Verification of the RetinaFace DeepStream custom parser
(`nvdsinfer_custom_retinaface.cpp`): shallow embedding of the decode +
NMS pipeline over exact rationals, with `std::exp` modelled by an
explicit function parameter `fexp : ℚ → ℚ` (the transcendental `expf`
has no exact rational implementation; theorems assume of `fexp` only
what each statement needs, and concrete runs instantiate it at inputs
where the source only ever calls `expf` at `0`).
-/

namespace RetinaFace

/-- `RetinaFaceDetection` from `nvdsinfer_custom_retinaface.h`:
corner coordinates in pixels, face confidence, and 10 landmark floats.
Float values are idealised as exact rationals. -/
structure RetinaFaceDetection where
  x1 : ℚ
  y1 : ℚ
  x2 : ℚ
  y2 : ℚ
  confidence : ℚ
  landmarks : List ℚ
  deriving DecidableEq, Repr

/-- The IoU computed inline in `applyNMS` (lines 50–58): intersection
rectangle clamped to non-negative width/height, divided by
`areaA + areaB - intersection`.  Division by zero is `0` in `ℚ`
(the spec's "if both areas are 0, define IoU = 0"). -/
def detIoU (a b : RetinaFaceDetection) : ℚ :=
  let x1 := max a.x1 b.x1
  let y1 := max a.y1 b.y1
  let x2 := min a.x2 b.x2
  let y2 := min a.y2 b.y2
  let intersection := max 0 (x2 - x1) * max 0 (y2 - y1)
  let areaA := (a.x2 - a.x1) * (a.y2 - a.y1)
  let areaB := (b.x2 - b.x1) * (b.y2 - b.y1)
  intersection / (areaA + areaB - intersection)

/-- The comparator passed to `std::sort` in `applyNMS` (line 34) induces
this "sorted" relation: `a` may precede `b` iff `¬ (b.confidence > a.confidence)`. -/
def confGE (a b : RetinaFaceDetection) : Prop :=
  b.confidence ≤ a.confidence

instance : DecidableRel confGE := fun a b =>
  inferInstanceAs (Decidable (b.confidence ≤ a.confidence))

instance : IsTotal RetinaFaceDetection confGE :=
  ⟨fun a b => (le_total b.confidence a.confidence).imp id id⟩

instance : IsTrans RetinaFaceDetection confGE :=
  ⟨fun _ _ _ h1 h2 => le_trans h2 h1⟩

/-- The sort in `applyNMS` (lines 31–35).  `std::sort` guarantees only a
permutation ordered under the comparator (see `cppSortOk`); we fix the
stable insertion-sort refinement as the executable model (it is a valid
`std::sort` outcome, and the one libstdc++ uses on small ranges). -/
def sortDetections (l : List RetinaFaceDetection) : List RetinaFaceDetection :=
  l.insertionSort confGE

/-- The postcondition the C++ standard gives for the `std::sort` call in
`applyNMS`: the result is a permutation of the input, ordered so that no
later element has strictly greater confidence.  Stability is *not*
guaranteed. -/
def cppSortOk (l l' : List RetinaFaceDetection) : Prop :=
  l'.Perm l ∧ l'.Pairwise confGE

/-- The greedy suppression loop of `applyNMS` (lines 37–63): keep the
first unsuppressed candidate, suppress every later candidate whose IoU
with it exceeds the threshold.  The `suppressed[]` marker array of the
source is modelled by filtering the tail. -/
def nmsLoop (t : ℚ) : List RetinaFaceDetection → List RetinaFaceDetection
  | [] => []
  | a :: rest =>
      a :: nmsLoop t (rest.filter (fun b => !decide (t < detIoU a b)))
  termination_by l => l.length
  decreasing_by
    simpa [Nat.lt_succ_iff] using List.length_filter_le _ rest

/-- `applyNMS` (lines 28–66): sort by confidence descending, then run the
greedy suppression loop. -/
def applyNMS (detections : List RetinaFaceDetection) (nmsThreshold : ℚ) :
    List RetinaFaceDetection :=
  nmsLoop nmsThreshold (sortDetections detections)

/-- `applyNMS` under the bare `std::sort` contract: some compliant sorted
permutation is suppressed by the greedy loop. -/
def cppApplyNMSRel (detections : List RetinaFaceDetection) (nmsThreshold : ℚ)
    (out : List RetinaFaceDetection) : Prop :=
  ∃ s, cppSortOk detections s ∧ out = nmsLoop nmsThreshold s

/-! ## Decoder (`decodeRetinaFace`, lines 68–221) -/

/-- The stride/base-anchor table `kStrideAnchors` (lines 19–23). -/
def kStrideAnchors : List (ℕ × ℕ) := [(8, 16), (16, 64), (32, 256)]

/-- `feat_w = inputWidth / stride` (lines 92–93): C integer division on
non-negative operands, i.e. `Nat` division. -/
def featDim (n stride : ℕ) : ℕ := n / stride

/-- An anchor/prior box `{cx, cy, w, h}` in normalized coordinates. -/
structure Prior where
  cx : ℚ
  cy : ℚ
  w : ℚ
  h : ℚ
  deriving DecidableEq, Repr

/-- The prior of cell `(x, y)`, anchor `k`, as computed on lines 146–152:
`prior_cx = (x + 0.5) / feat_w`, `prior_cy = (y + 0.5) / feat_h`,
`prior_w = anchorSize * (k + 1) / inputWidth`,
`prior_h = anchorSize * (k + 1) / inputHeight`. -/
def mkPrior (W H featW featH aSize x y k : ℕ) : Prior where
  cx := ((x : ℚ) + 1/2) / (featW : ℚ)
  cy := ((y : ℚ) + 1/2) / (featH : ℚ)
  w := ((aSize * (k + 1) : ℕ) : ℚ) / (W : ℚ)
  h := ((aSize * (k + 1) : ℕ) : ℚ) / (H : ℚ)

/-- The per-anchor box/landmark decoding (lines 159–201): variance
constants `0.1` and `0.2` applied to the deltas, conversion to pixel
corners, and landmark decoding with the center variance only.
`lds` is the list of the 10 raw landmark floats of this anchor. -/
def decodeAnchor (fexp : ℚ → ℚ) (p : Prior) (dx dy dw dh : ℚ)
    (lds : List ℚ) (score : ℚ) (W H : ℚ) : RetinaFaceDetection :=
  let cx := p.cx + dx * (1/10) * p.w
  let cy := p.cy + dy * (1/10) * p.h
  let w := p.w * fexp (dw * (1/5))
  let h := p.h * fexp (dh * (1/5))
  { x1 := (cx - w * (1/2)) * W
    y1 := (cy - h * (1/2)) * H
    x2 := (cx + w * (1/2)) * W
    y2 := (cy + h * (1/2)) * H
    confidence := score
    landmarks :=
      (List.range 5).flatMap fun m =>
        [(p.cx + lds.getD (2 * m) 0 * (1/10) * p.w) * W,
         (p.cy + lds.getD (2 * m + 1) 0 * (1/10) * p.h) * H] }

/-- The two-class softmax face score of lines 123–131:
`scoreFace = exp(c2) / (exp(c1) + exp(c2))`. -/
def scoreFace (fexp : ℚ → ℚ) (c1 c2 : ℚ) : ℚ :=
  fexp c2 / (fexp c1 + fexp c2)

/-- The body of the innermost loop (lines 116–204) for cell `(x, y)`,
anchor `k`: read the two confidence logits, softmax them, skip the
anchor when the score is below the threshold, otherwise read the 4 box
deltas and 10 landmark deltas and decode.  Raw buffers are `List ℚ`
read through `getD _ 0`: an index past the end of the buffer is an
out-of-bounds read in the C source (undefined behaviour), modelled
here as reading `0`. -/
def decodeCell (fexp : ℚ → ℚ) (loc landm conf : List ℚ)
    (lo mo co : ℕ) (featW featH aSize : ℕ) (W H : ℕ) (thr : ℚ)
    (y x k : ℕ) : Option RetinaFaceDetection :=
  let cellIndex := y * featW + x
  let c1 := conf.getD (co + (2 * 2) * cellIndex + k * 2) 0
  let c2 := conf.getD (co + (2 * 2) * cellIndex + k * 2 + 1) 0
  let score := scoreFace fexp c1 c2
  if score < thr then none
  else
    let dx := loc.getD (lo + (4 * 2) * cellIndex + k * 4) 0
    let dy := loc.getD (lo + (4 * 2) * cellIndex + k * 4 + 1) 0
    let dw := loc.getD (lo + (4 * 2) * cellIndex + k * 4 + 2) 0
    let dh := loc.getD (lo + (4 * 2) * cellIndex + k * 4 + 3) 0
    let lds := (List.range 10).map fun t =>
      landm.getD (mo + (10 * 2) * cellIndex + k * 10 + t) 0
    some (decodeAnchor fexp (mkPrior W H featW featH aSize x y k)
      dx dy dw dh lds score (W : ℚ) (H : ℚ))

/-- One scale level of the decode loop (lines 110–206): all cells in
row-major order, two anchors per cell, anchors failing the confidence
threshold skipped. -/
def decodeScale (fexp : ℚ → ℚ) (loc landm conf : List ℚ)
    (lo mo co : ℕ) (stride aSize : ℕ) (W H : ℕ) (thr : ℚ) :
    List RetinaFaceDetection :=
  let fw := featDim W stride
  let fh := featDim H stride
  (List.range fh).flatMap fun y =>
    (List.range fw).flatMap fun x =>
      (List.range 2).filterMap fun k =>
        decodeCell fexp loc landm conf lo mo co fw fh aSize W H thr y x k

/-- The outer loop over the 3 FPN levels (lines 86–212), threading the
running offsets `locOffset`, `landmOffset`, `confOffset` which advance
by `(4*2)*featSize`, `(10*2)*featSize`, `(2*2)*featSize` per level. -/
def decodeScales (fexp : ℚ → ℚ) (loc landm conf : List ℚ) (W H : ℕ)
    (thr : ℚ) : List (ℕ × ℕ) → ℕ → ℕ → ℕ → List RetinaFaceDetection
  | [], _, _, _ => []
  | (stride, aSize) :: rest, lo, mo, co =>
      let featSize := featDim W stride * featDim H stride
      decodeScale fexp loc landm conf lo mo co stride aSize W H thr
        ++ decodeScales fexp loc landm conf W H thr rest
            (lo + (4 * 2) * featSize) (mo + (10 * 2) * featSize)
            (co + (2 * 2) * featSize)

/-- `decodeRetinaFace` (lines 68–221). -/
def decodeRetinaFace (fexp : ℚ → ℚ) (locData landmData confData : List ℚ)
    (inputWidth inputHeight : ℕ) (confThreshold : ℚ) :
    List RetinaFaceDetection :=
  decodeScales fexp locData landmData confData inputWidth inputHeight
    confThreshold kStrideAnchors 0 0 0

/-! ## Pipeline adapter (`NvDsInferParseCustomRetinaFace`, lines 229–327) -/

/-- The fields of `NvDsInferObjectDetectionInfo` written on lines 305–311. -/
structure NvDsInferObjectDetectionInfo where
  classId : ℕ
  detectionConfidence : ℚ
  left : ℚ
  top : ℚ
  width : ℚ
  height : ℚ
  deriving DecidableEq, Repr

/-- The post-NMS output loop (lines 285–323): re-check the confidence
threshold, drop boxes with `x2 - x1 < 1` or `y2 - y1 < 1` (no clipping
is performed), and emit class-0 detection records. -/
def emitDetections (confThreshold : ℚ) (dets : List RetinaFaceDetection) :
    List NvDsInferObjectDetectionInfo :=
  dets.filterMap fun det =>
    if det.confidence < confThreshold then none
    else if det.x2 - det.x1 < 1 ∨ det.y2 - det.y1 < 1 then none
    else some
      { classId := 0
        detectionConfidence := det.confidence
        left := det.x1
        top := det.y1
        width := det.x2 - det.x1
        height := det.y2 - det.y1 }

/-- `NvDsInferParseCustomRetinaFace` (lines 229–327).  `layers` is the
list of output buffers (`loc`, `landm`, `conf` expected at indices
0, 1, 2); `numBboxes` is `locLayer.inferDims.d[0]`.  The function
returns `none` exactly where the C function returns `false` (fewer than
3 layers, or zero declared box count, lines 239–242 and 262–265);
otherwise `some objectList`.  Batch pointer arithmetic
(`locData + batchIdx * numBboxes * 4`, lines 274–276) becomes
`List.drop`. -/
def parseRetinaFace (fexp : ℚ → ℚ) (layers : List (List ℚ))
    (numBboxes : ℕ) (inputW inputH : ℕ) (confThreshold nmsThreshold : ℚ)
    (batchSize : ℕ) : Option (List NvDsInferObjectDetectionInfo) :=
  if layers.length < 3 then none
  else if numBboxes = 0 then none
  else
    let locData := layers.getD 0 []
    let landmData := layers.getD 1 []
    let confData := layers.getD 2 []
    some <| (List.range batchSize).flatMap fun batchIdx =>
      let locBatch := locData.drop (batchIdx * numBboxes * 4)
      let landmBatch := landmData.drop (batchIdx * numBboxes * 10)
      let confBatch := confData.drop (batchIdx * numBboxes * 2)
      let dets := decodeRetinaFace fexp locBatch landmBatch confBatch
        inputW inputH confThreshold
      emitDetections confThreshold (applyNMS dets nmsThreshold)

/-! ## Spec-side definitions, for refinement comparisons.

These follow the wording of the specification, not the source; each is
compared against the corresponding source-derived definition in the
theorems below. -/

/-- The spec's fixed steps per scale level (§6): `{8, 16, 32}`. -/
def specSteps : List ℕ := [8, 16, 32]

/-- The spec's min-size pairs per scale level (§6):
`{16,32}, {64,128}, {256,512}`. -/
def specMinSizes : List (List ℕ) := [[16, 32], [64, 128], [256, 512]]

/-- Ceiling division, for the spec's `ceil(inputHeight/step)`. -/
def ceilDiv (n s : ℕ) : ℕ := (n + s - 1) / s

/-- Spec §4.1: the anchor for cell `(i, j)` and a given `minSize`:
`cx = (j+0.5)*step/inputWidth`, `cy = (i+0.5)*step/inputHeight`,
`w = minSize/inputWidth`, `h = minSize/inputHeight`. -/
def specAnchor (W H step m i j : ℕ) : Prior where
  cx := ((j : ℚ) + 1/2) * (step : ℚ) / (W : ℚ)
  cy := ((i : ℚ) + 1/2) * (step : ℚ) / (H : ℚ)
  w := (m : ℚ) / (W : ℚ)
  h := (m : ℚ) / (H : ℚ)

/-- Spec §4.1: one scale level's anchors — feature-map height
`ceil(H/step)`, width `ceil(W/step)`, cells in row-major order, one
anchor per min-size in list order. -/
def specLevelAnchors (W H step : ℕ) (ms : List ℕ) : List Prior :=
  (List.range (ceilDiv H step)).flatMap fun i =>
    (List.range (ceilDiv W step)).flatMap fun j =>
      ms.map fun m => specAnchor W H step m i j

/-- Spec §4.1/§6: the full anchor grid over the three scale levels. -/
def specAnchorGrid (W H : ℕ) : List Prior :=
  (specSteps.zip specMinSizes).flatMap fun p =>
    specLevelAnchors W H p.1 p.2

/-- The priors the decoder actually uses, in emission order (the prior
computation of lines 146–152, iterated exactly as the loops on lines
86–116 do, with `feat_w = inputWidth / stride` integer division). -/
def codeLevelPriors (W H stride aSize : ℕ) : List Prior :=
  let fw := featDim W stride
  let fh := featDim H stride
  (List.range fh).flatMap fun y =>
    (List.range fw).flatMap fun x =>
      (List.range 2).map fun k => mkPrior W H fw fh aSize x y k

/-- All priors of the decoder over the three scale levels, in order. -/
def codePriors (W H : ℕ) : List Prior :=
  kStrideAnchors.flatMap fun sa => codeLevelPriors W H sa.1 sa.2

/-- The anchor decode as the spec §4.2 words it (steps 2–4):
`cx = anchor.cx + loc[4i]*V0*anchor.w`, …, `w = anchor.w*exp(loc[4i+2]*V1)`,
corners `x1 = cx - w/2`, … scaled by the input dimensions, landmarks
`lx = (anchor.cx + landm[10i+2m]*V0*anchor.w)*inputWidth` using only the
center variance `V0 = 0.1`, `V1 = 0.2`. -/
def specDecodeDet (fexp : ℚ → ℚ) (p : Prior) (dx dy dw dh : ℚ)
    (lds : List ℚ) (score : ℚ) (W H : ℚ) : RetinaFaceDetection :=
  let V0 : ℚ := 1/10
  let V1 : ℚ := 1/5
  let cx := p.cx + dx * V0 * p.w
  let cy := p.cy + dy * V0 * p.h
  let w := p.w * fexp (dw * V1)
  let h := p.h * fexp (dh * V1)
  { x1 := (cx - w / 2) * W
    y1 := (cy - h / 2) * H
    x2 := (cx + w / 2) * W
    y2 := (cy + h / 2) * H
    confidence := score
    landmarks :=
      (List.range 5).flatMap fun m =>
        [(p.cx + lds.getD (2 * m) 0 * V0 * p.w) * W,
         (p.cy + lds.getD (2 * m + 1) 0 * V0 * p.h) * H] }

/-- One scale level decoded with no threshold test: every anchor of the
level, in emission order. -/
def decodeScaleAll (fexp : ℚ → ℚ) (loc landm conf : List ℚ)
    (lo mo co : ℕ) (stride aSize : ℕ) (W H : ℕ) :
    List RetinaFaceDetection :=
  let fw := featDim W stride
  let fh := featDim H stride
  (List.range fh).flatMap fun y =>
    (List.range fw).flatMap fun x =>
      (List.range 2).map fun k =>
        let cellIndex := y * fw + x
        let c1 := conf.getD (co + (2 * 2) * cellIndex + k * 2) 0
        let c2 := conf.getD (co + (2 * 2) * cellIndex + k * 2 + 1) 0
        let dx := loc.getD (lo + (4 * 2) * cellIndex + k * 4) 0
        let dy := loc.getD (lo + (4 * 2) * cellIndex + k * 4 + 1) 0
        let dw := loc.getD (lo + (4 * 2) * cellIndex + k * 4 + 2) 0
        let dh := loc.getD (lo + (4 * 2) * cellIndex + k * 4 + 3) 0
        let lds := (List.range 10).map fun t =>
          landm.getD (mo + (10 * 2) * cellIndex + k * 10 + t) 0
        decodeAnchor fexp (mkPrior W H fw fh aSize x y k)
          dx dy dw dh lds (scoreFace fexp c1 c2) (W : ℚ) (H : ℚ)

/-- All anchors of all three levels decoded (no threshold test), in the
decoder's ascending anchor order: scale level ascending by stride,
row-major cell, anchor-within-cell. -/
def decodeAllScales (fexp : ℚ → ℚ) (loc landm conf : List ℚ) (W H : ℕ) :
    List (ℕ × ℕ) → ℕ → ℕ → ℕ → List RetinaFaceDetection
  | [], _, _, _ => []
  | (stride, aSize) :: rest, lo, mo, co =>
      let featSize := featDim W stride * featDim H stride
      decodeScaleAll fexp loc landm conf lo mo co stride aSize W H
        ++ decodeAllScales fexp loc landm conf W H rest
            (lo + (4 * 2) * featSize) (mo + (10 * 2) * featSize)
            (co + (2 * 2) * featSize)

/-- The full candidate sequence: every anchor decoded, ascending anchor
order, no confidence filtering. -/
def decodeAllAnchors (fexp : ℚ → ℚ) (locData landmData confData : List ℚ)
    (inputWidth inputHeight : ℕ) : List RetinaFaceDetection :=
  decodeAllScales fexp locData landmData confData inputWidth inputHeight
    kStrideAnchors 0 0 0

/-! ## Shared lemmas about the greedy suppression loop -/

theorem nmsLoop_sublist (t : ℚ) :
    ∀ (fuel : ℕ) (l : List RetinaFaceDetection), l.length ≤ fuel →
      (nmsLoop t l).Sublist l := by
  intro fuel
  induction fuel with
  | zero =>
      intro l hl
      rw [List.length_eq_zero.mp (Nat.le_zero.mp hl)]
      simp [nmsLoop]
  | succ n ih =>
      intro l hl
      cases l with
      | nil => simp [nmsLoop]
      | cons a rest =>
          rw [nmsLoop]
          refine List.Sublist.cons₂ a ?_
          exact (ih _ (le_trans (List.length_filter_le _ rest)
            (Nat.le_of_succ_le_succ hl))).trans (List.filter_sublist rest)

theorem nmsLoop_sublist' (t : ℚ) (l : List RetinaFaceDetection) :
    (nmsLoop t l).Sublist l :=
  nmsLoop_sublist t l.length l le_rfl

theorem nmsLoop_pairwise_iou (t : ℚ) :
    ∀ (fuel : ℕ) (l : List RetinaFaceDetection), l.length ≤ fuel →
      (nmsLoop t l).Pairwise (fun a b => detIoU a b ≤ t) := by
  intro fuel
  induction fuel with
  | zero =>
      intro l hl
      rw [List.length_eq_zero.mp (Nat.le_zero.mp hl)]
      simp [nmsLoop]
  | succ n ih =>
      intro l hl
      cases l with
      | nil => simp [nmsLoop]
      | cons a rest =>
          rw [nmsLoop]
          have hrest : (rest.filter
              (fun b => !decide (t < detIoU a b))).length ≤ n :=
            le_trans (List.length_filter_le _ rest) (Nat.le_of_succ_le_succ hl)
          refine List.Pairwise.cons ?_ (ih _ hrest)
          intro b hb
          have hb' := (nmsLoop_sublist' t _).mem hb
          have := List.of_mem_filter hb'
          simpa [not_lt] using this

theorem nmsLoop_eq_self_of_pairwise (t : ℚ) :
    ∀ (fuel : ℕ) (l : List RetinaFaceDetection), l.length ≤ fuel →
      l.Pairwise (fun a b => detIoU a b ≤ t) → nmsLoop t l = l := by
  intro fuel
  induction fuel with
  | zero =>
      intro l hl _
      rw [List.length_eq_zero.mp (Nat.le_zero.mp hl)]
      simp [nmsLoop]
  | succ n ih =>
      intro l hl hp
      cases l with
      | nil => simp [nmsLoop]
      | cons a rest =>
          rw [nmsLoop]
          rcases List.pairwise_cons.mp hp with ⟨ha, hrest⟩
          have hfilter : rest.filter (fun b => !decide (t < detIoU a b)) = rest := by
            apply List.filter_eq_self.mpr
            intro b hb
            simpa [not_lt] using ha b hb
          rw [hfilter]
          rw [ih rest (Nat.le_of_succ_le_succ hl) hrest]

theorem detIoU_comm (a b : RetinaFaceDetection) : detIoU a b = detIoU b a := by
  simp only [detIoU, max_comm a.x1 b.x1, max_comm a.y1 b.y1,
    min_comm a.x2 b.x2, min_comm a.y2 b.y2]
  ring_nf

/-- If one of the two boxes has zero area, the clamped intersection is zero,
so the inline IoU is `0` (`0 / d = 0` in `ℚ`). -/
theorem detIoU_eq_zero_of_left_area_zero (a b : RetinaFaceDetection)
    (ha : (a.x2 - a.x1) * (a.y2 - a.y1) = 0) : detIoU a b = 0 := by
  rcases mul_eq_zero.mp ha with hw | hh
  · have h1 : min a.x2 b.x2 - max a.x1 b.x1 ≤ 0 := by
      have := sub_le_sub (min_le_left a.x2 b.x2) (le_max_left a.x1 b.x1)
      linarith [sub_eq_zero.mp hw ▸ this]
    simp only [detIoU]
    rw [max_eq_left h1, zero_mul, zero_div]
  · have h1 : min a.y2 b.y2 - max a.y1 b.y1 ≤ 0 := by
      have := sub_le_sub (min_le_left a.y2 b.y2) (le_max_left a.y1 b.y1)
      linarith [sub_eq_zero.mp hh ▸ this]
    simp only [detIoU]
    rw [max_eq_left h1, mul_zero, zero_div]

/-- The greedy loop keeps both elements of a two-element list whose IoU
does not exceed the threshold. -/
theorem nmsLoop_pair (t : ℚ) (x y : RetinaFaceDetection)
    (h : detIoU x y ≤ t) : nmsLoop t [x, y] = [x, y] := by
  rw [nmsLoop]
  have : [y].filter (fun b => !decide (t < detIoU x b)) = [y] := by
    simp [List.filter, not_lt.mpr h]
  rw [this, nmsLoop, List.filter_nil, nmsLoop]

/-! ## Decoder lemmas -/

theorem filter_flatMap' {α β : Type} (l : List α) (f : α → List β)
    (p : β → Bool) :
    (l.flatMap f).filter p = l.flatMap fun a => (f a).filter p := by
  induction l with
  | nil => rfl
  | cons a l ih => simp [List.flatMap_cons, List.filter_append, ih]

theorem filterMap_threshold {α : Type} (thr : ℚ)
    (g : α → RetinaFaceDetection) (l : List α) :
    (l.filterMap fun a =>
        if (g a).confidence < thr then none else some (g a)) =
      (l.map g).filter fun d => decide (thr ≤ d.confidence) := by
  induction l with
  | nil => rfl
  | cons a l ih =>
      by_cases h : (g a).confidence < thr
      · simp [List.filterMap_cons, List.filter_cons, h, not_le.mpr h, ih]
      · simp [List.filterMap_cons, List.filter_cons, h, not_lt.mp h, ih]

/-- The thresholded decode of one scale is the unthresholded decode of
that scale filtered by `confThreshold ≤ confidence`. -/
theorem decodeScale_eq_filter (fexp : ℚ → ℚ) (loc landm conf : List ℚ)
    (lo mo co stride aSize W H : ℕ) (thr : ℚ) :
    decodeScale fexp loc landm conf lo mo co stride aSize W H thr =
      (decodeScaleAll fexp loc landm conf lo mo co stride aSize W H).filter
        fun d => decide (thr ≤ d.confidence) := by
  unfold decodeScale decodeScaleAll
  rw [filter_flatMap']
  refine List.flatMap_congr fun y _ => ?_
  rw [filter_flatMap']
  refine List.flatMap_congr fun x _ => ?_
  rw [← filterMap_threshold thr]
  rfl

/-- The thresholded decode over any scale list with any offsets equals
the unthresholded decode filtered by the confidence threshold. -/
theorem decodeScales_eq_filter (fexp : ℚ → ℚ) (loc landm conf : List ℚ)
    (W H : ℕ) (thr : ℚ) :
    ∀ (scales : List (ℕ × ℕ)) (lo mo co : ℕ),
      decodeScales fexp loc landm conf W H thr scales lo mo co =
        (decodeAllScales fexp loc landm conf W H scales lo mo co).filter
          fun d => decide (thr ≤ d.confidence) := by
  intro scales
  induction scales with
  | nil => intro lo mo co; rfl
  | cons sa rest ih =>
      intro lo mo co
      obtain ⟨stride, aSize⟩ := sa
      simp only [decodeScales, decodeAllScales, List.filter_append]
      rw [decodeScale_eq_filter, ih]

/-! ## Claim theorems -/

/-- C6: for every input detection list and every IoU threshold, any two
distinct detections retained by `applyNMS` have pairwise IoU at most the
threshold (and the inline IoU computation is symmetric, so this covers
unordered pairs). -/
theorem C6_nms_retained_pairwise_iou_le
    (detections : List RetinaFaceDetection) (nmsThreshold : ℚ) :
    (applyNMS detections nmsThreshold).Pairwise
        (fun a b => detIoU a b ≤ nmsThreshold) ∧
      ∀ a b : RetinaFaceDetection, detIoU a b = detIoU b a :=
  ⟨nmsLoop_pairwise_iou nmsThreshold _ _ le_rfl, detIoU_comm⟩

/-- C4: the decoder returns exactly the anchors whose softmax face
probability `exp(c2) / (exp(c1) + exp(c2))` is `≥ confThreshold`, in
ascending anchor order (the filter of the full anchor-ordered candidate
sequence), not sorted by score; and equal logits `conf = [0, 0]` give
probability exactly `1/2`. -/
theorem C4_decoder_threshold_filter_anchor_order (fexp : ℚ → ℚ)
    (locData landmData confData : List ℚ) (inputWidth inputHeight : ℕ)
    (confThreshold : ℚ) (hpos : 0 < fexp 0) :
    decodeRetinaFace fexp locData landmData confData
        inputWidth inputHeight confThreshold =
      (decodeAllAnchors fexp locData landmData confData
          inputWidth inputHeight).filter
        (fun d => decide (confThreshold ≤ d.confidence)) ∧
    scoreFace fexp 0 0 = 1/2 := by
  constructor
  · exact decodeScales_eq_filter fexp locData landmData confData
      inputWidth inputHeight confThreshold kStrideAnchors 0 0 0
  · unfold scoreFace
    rw [div_eq_iff (by linarith)]
    ring

/-- Witness for C4 at a concrete input. -/
theorem C4_witness :
    (0 : ℚ) < (fun _ : ℚ => (1 : ℚ)) 0 ∧
    (decodeRetinaFace (fun _ => 1) (List.replicate 8 0) (List.replicate 20 0)
        (List.replicate 4 0) 8 8 (1/2) =
      (decodeAllAnchors (fun _ => 1) (List.replicate 8 0) (List.replicate 20 0)
          (List.replicate 4 0) 8 8).filter
        (fun d => decide ((1:ℚ)/2 ≤ d.confidence)) ∧
      scoreFace (fun _ => 1) 0 0 = 1/2) :=
  ⟨by norm_num,
   C4_decoder_threshold_filter_anchor_order (fun _ => 1) _ _ _ 8 8 (1/2)
     (by norm_num)⟩

/-- C5: the decoded box satisfies the variance-encoded regression
formulas of the spec (`V0 = 0.1` for centers and landmarks, `V1 = 0.2`
for sizes, corner conversion, pixel scaling); with zero deltas the
decoded box center equals the anchor center and its size equals the
anchor size exactly. -/
theorem C5_box_decode_variance_formulas (fexp : ℚ → ℚ) (p : Prior)
    (lds : List ℚ) (score W H : ℚ) (h0 : fexp 0 = 1) :
    (∀ dx dy dw dh,
        decodeAnchor fexp p dx dy dw dh lds score W H =
          specDecodeDet fexp p dx dy dw dh lds score W H) ∧
    ((decodeAnchor fexp p 0 0 0 0 lds score W H).x1 +
          (decodeAnchor fexp p 0 0 0 0 lds score W H).x2) / 2 = p.cx * W ∧
    (decodeAnchor fexp p 0 0 0 0 lds score W H).x2 -
        (decodeAnchor fexp p 0 0 0 0 lds score W H).x1 = p.w * W ∧
    ((decodeAnchor fexp p 0 0 0 0 lds score W H).y1 +
          (decodeAnchor fexp p 0 0 0 0 lds score W H).y2) / 2 = p.cy * H ∧
    (decodeAnchor fexp p 0 0 0 0 lds score W H).y2 -
        (decodeAnchor fexp p 0 0 0 0 lds score W H).y1 = p.h * H := by
  refine ⟨fun dx dy dw dh => ?_, ?_, ?_, ?_, ?_⟩
  · simp only [decodeAnchor, specDecodeDet, RetinaFaceDetection.mk.injEq,
      and_true, true_and]
    refine ⟨by ring, by ring, by ring, by ring⟩
  · simp only [decodeAnchor, zero_mul, h0, mul_one]
    ring
  · simp only [decodeAnchor, zero_mul, h0, mul_one]
    ring
  · simp only [decodeAnchor, zero_mul, h0, mul_one]
    ring
  · simp only [decodeAnchor, zero_mul, h0, mul_one]
    ring

/-- Witness for C5 at the spec's synthetic anchor
`{cx = 0.5, cy = 0.5, w = 0.2, h = 0.2}`. -/
theorem C5_witness :
    (fun _ : ℚ => (1 : ℚ)) 0 = 1 ∧
    ((∀ dx dy dw dh,
        decodeAnchor (fun _ => 1) ⟨1/2, 1/2, 1/5, 1/5⟩ dx dy dw dh [] 1 640 640 =
          specDecodeDet (fun _ => 1) ⟨1/2, 1/2, 1/5, 1/5⟩ dx dy dw dh [] 1 640 640) ∧
    ((decodeAnchor (fun _ => 1) ⟨1/2, 1/2, 1/5, 1/5⟩ 0 0 0 0 [] 1 640 640).x1 +
          (decodeAnchor (fun _ => 1) ⟨1/2, 1/2, 1/5, 1/5⟩ 0 0 0 0 [] 1 640 640).x2) / 2 =
        (1/2 : ℚ) * 640 ∧
    (decodeAnchor (fun _ => 1) ⟨1/2, 1/2, 1/5, 1/5⟩ 0 0 0 0 [] 1 640 640).x2 -
        (decodeAnchor (fun _ => 1) ⟨1/2, 1/2, 1/5, 1/5⟩ 0 0 0 0 [] 1 640 640).x1 =
        (1/5 : ℚ) * 640 ∧
    ((decodeAnchor (fun _ => 1) ⟨1/2, 1/2, 1/5, 1/5⟩ 0 0 0 0 [] 1 640 640).y1 +
          (decodeAnchor (fun _ => 1) ⟨1/2, 1/2, 1/5, 1/5⟩ 0 0 0 0 [] 1 640 640).y2) / 2 =
        (1/2 : ℚ) * 640 ∧
    (decodeAnchor (fun _ => 1) ⟨1/2, 1/2, 1/5, 1/5⟩ 0 0 0 0 [] 1 640 640).y2 -
        (decodeAnchor (fun _ => 1) ⟨1/2, 1/2, 1/5, 1/5⟩ 0 0 0 0 [] 1 640 640).y1 =
        (1/5 : ℚ) * 640) :=
  ⟨rfl, C5_box_decode_variance_formulas (fun _ => 1) ⟨1/2, 1/2, 1/5, 1/5⟩ [] 1 640 640 rfl⟩

/-- C9: in `applyNMS`'s IoU computation, a pair of degenerate zero-area
boxes yields IoU exactly `0` (the zero-denominator division is total in
`ℚ`, matching the spec's "define IoU = 0"), and for any non-negative
threshold neither zero-area box suppresses the other: both survive
suppression. -/
theorem C9_zero_area_iou_zero_never_suppressed
    (a b : RetinaFaceDetection) (thr : ℚ)
    (ha : (a.x2 - a.x1) * (a.y2 - a.y1) = 0)
    (hb : (b.x2 - b.x1) * (b.y2 - b.y1) = 0)
    (ht : 0 ≤ thr) :
    detIoU a b = 0 ∧ a ∈ applyNMS [a, b] thr ∧ b ∈ applyNMS [a, b] thr := by
  have hab : detIoU a b = 0 := detIoU_eq_zero_of_left_area_zero a b ha
  have hba : detIoU b a = 0 := detIoU_eq_zero_of_left_area_zero b a hb
  refine ⟨hab, ?_⟩
  have hsort : sortDetections [a, b] = [a, b] ∨ sortDetections [a, b] = [b, a] := by
    by_cases hc : b.confidence ≤ a.confidence
    · left
      simp [sortDetections, List.insertionSort, List.orderedInsert, confGE, hc]
    · right
      simp [sortDetections, List.insertionSort, List.orderedInsert, confGE, hc]
  unfold applyNMS
  rcases hsort with hs | hs
  · rw [hs, nmsLoop_pair thr a b (hab ▸ ht)]
    simp
  · rw [hs, nmsLoop_pair thr b a (hba ▸ ht)]
    simp

/-- Witness for C9: two concrete zero-area boxes. -/
theorem C9_witness :
    (((0:ℚ) - 0) * ((5:ℚ) - 0) = 0 ∧ ((3:ℚ) - 1) * ((2:ℚ) - 2) = 0 ∧
      (0:ℚ) ≤ 2/5) ∧
    (detIoU ⟨0, 0, 0, 5, 1, []⟩ ⟨1, 2, 3, 2, 1/2, []⟩ = 0 ∧
      (⟨0, 0, 0, 5, 1, []⟩ : RetinaFaceDetection) ∈
        applyNMS [⟨0, 0, 0, 5, 1, []⟩, ⟨1, 2, 3, 2, 1/2, []⟩] (2/5) ∧
      (⟨1, 2, 3, 2, 1/2, []⟩ : RetinaFaceDetection) ∈
        applyNMS [⟨0, 0, 0, 5, 1, []⟩, ⟨1, 2, 3, 2, 1/2, []⟩] (2/5)) :=
  ⟨⟨by norm_num, by norm_num, by norm_num⟩,
   C9_zero_area_iou_zero_never_suppressed ⟨0, 0, 0, 5, 1, []⟩
     ⟨1, 2, 3, 2, 1/2, []⟩ (2/5) (by norm_num) (by norm_num) (by norm_num)⟩

/-- C10: with `batchSize = 1`, the parser's output is independent of the
declared anchor count `locLayer.inferDims.d[0]`, as long as it is
nonzero: the decode derives every buffer index from the input
dimensions and the fixed strides alone. -/
theorem C10_output_independent_of_declared_anchor_count (fexp : ℚ → ℚ)
    (layers : List (List ℚ)) (n1 n2 : ℕ) (inputW inputH : ℕ)
    (confThreshold nmsThreshold : ℚ) (h1 : 0 < n1) (h2 : 0 < n2) :
    parseRetinaFace fexp layers n1 inputW inputH confThreshold nmsThreshold 1 =
      parseRetinaFace fexp layers n2 inputW inputH confThreshold nmsThreshold 1 := by
  unfold parseRetinaFace
  simp only [Nat.pos_iff_ne_zero.mp h1, Nat.pos_iff_ne_zero.mp h2,
    if_false, show List.range 1 = [0] from rfl, List.flatMap_cons,
    List.flatMap_nil, Nat.zero_mul, List.drop_zero]

/-- Witness for C10: declared counts 1 and 7 give identical output. -/
theorem C10_witness :
    0 < 1 ∧ 0 < 7 ∧
    parseRetinaFace (fun _ => 1)
        [List.replicate 8 0, List.replicate 20 0, List.replicate 4 0]
        1 8 8 (1/2) (2/5) 1 =
      parseRetinaFace (fun _ => 1)
        [List.replicate 8 0, List.replicate 20 0, List.replicate 4 0]
        7 8 8 (1/2) (2/5) 1 :=
  ⟨by norm_num, by norm_num,
   C10_output_independent_of_declared_anchor_count (fun _ => 1)
     [List.replicate 8 0, List.replicate 20 0, List.replicate 4 0]
     1 7 8 8 (1/2) (2/5) (by norm_num) (by norm_num)⟩

/-! ## Concrete pipeline runs (input size 8×8, all-zero tensor values,
`confThreshold = 1/2`, `nmsThreshold = 2/5`).  The 8×8 grid has one
cell at stride 8 (two anchors, priors of normalized size 2 and 4) and
no cells at strides 16 and 32.  Zero logits give score exactly `1/2`;
zero deltas leave each prior in place, giving the pixel boxes
`(-4,-4,12,12)` and `(-12,-12,20,20)`. -/

theorem zeroRun_decode :
    decodeRetinaFace (fun _ => 1) (List.replicate 8 0) (List.replicate 20 0)
        (List.replicate 4 0) 8 8 (1/2) =
      [⟨-4, -4, 12, 12, 1/2, [4, 4, 4, 4, 4, 4, 4, 4, 4, 4]⟩,
       ⟨-12, -12, 20, 20, 1/2, [4, 4, 4, 4, 4, 4, 4, 4, 4, 4]⟩] := by
  norm_num [decodeRetinaFace, decodeScales, decodeScale, decodeCell,
    scoreFace, featDim, kStrideAnchors, List.range_succ,
    List.filterMap_cons, decodeAnchor, mkPrior]

theorem zeroRun_decode_shortLoc :
    decodeRetinaFace (fun _ => 1) [0, 0, 0] (List.replicate 20 0)
        (List.replicate 4 0) 8 8 (1/2) =
      [⟨-4, -4, 12, 12, 1/2, [4, 4, 4, 4, 4, 4, 4, 4, 4, 4]⟩,
       ⟨-12, -12, 20, 20, 1/2, [4, 4, 4, 4, 4, 4, 4, 4, 4, 4]⟩] := by
  norm_num [decodeRetinaFace, decodeScales, decodeScale, decodeCell,
    scoreFace, featDim, kStrideAnchors, List.range_succ,
    List.filterMap_cons, decodeAnchor, mkPrior]

theorem zeroRun_nms :
    applyNMS [⟨-4, -4, 12, 12, 1/2, [4, 4, 4, 4, 4, 4, 4, 4, 4, 4]⟩,
        ⟨-12, -12, 20, 20, 1/2, [4, 4, 4, 4, 4, 4, 4, 4, 4, 4]⟩] (2/5) =
      [⟨-4, -4, 12, 12, 1/2, [4, 4, 4, 4, 4, 4, 4, 4, 4, 4]⟩,
       ⟨-12, -12, 20, 20, 1/2, [4, 4, 4, 4, 4, 4, 4, 4, 4, 4]⟩] := by
  norm_num [applyNMS, sortDetections, List.insertionSort, List.orderedInsert,
    confGE, nmsLoop, detIoU]

theorem zeroRun_emit :
    emitDetections (1/2)
        [⟨-4, -4, 12, 12, 1/2, [4, 4, 4, 4, 4, 4, 4, 4, 4, 4]⟩,
         ⟨-12, -12, 20, 20, 1/2, [4, 4, 4, 4, 4, 4, 4, 4, 4, 4]⟩] =
      [⟨0, 1/2, -4, -4, 16, 16⟩, ⟨0, 1/2, -12, -12, 32, 32⟩] := by
  norm_num [emitDetections, List.filterMap_cons]

theorem zeroRun_parse :
    parseRetinaFace (fun _ => 1)
        [List.replicate 8 0, List.replicate 20 0, List.replicate 4 0]
        1 8 8 (1/2) (2/5) 1 =
      some [⟨0, 1/2, -4, -4, 16, 16⟩, ⟨0, 1/2, -12, -12, 32, 32⟩] := by
  unfold parseRetinaFace
  norm_num [List.range_succ, zeroRun_decode, zeroRun_nms, zeroRun_emit]

/-- Every record emitted by the post-NMS output loop has width and
height at least 1 pixel (the degenerate-box filter of line 300). -/
theorem emitDetections_min_size (thr : ℚ) (dets : List RetinaFaceDetection)
    (o : NvDsInferObjectDetectionInfo) (ho : o ∈ emitDetections thr dets) :
    1 ≤ o.width ∧ 1 ≤ o.height := by
  unfold emitDetections at ho
  rcases List.mem_filterMap.mp ho with ⟨det, _, hdet⟩
  by_cases h1 : det.confidence < thr
  · simp [h1] at hdet
  · by_cases h2 : det.x2 - det.x1 < 1 ∨ det.y2 - det.y1 < 1
    · simp [h1, h2] at hdet
    · push_neg at h2
      rw [if_neg h1, if_neg (by push_neg; exact h2)] at hdet
      cases hdet
      simpa using h2

/-- C1 (amended): the adapter performs no clipping; every detection in
the final caller-facing output list has post-filter width and height at
least the 1-pixel minimum (the degenerate-box filter is applied to the
unclipped coordinates), so in particular a detection with width < 1px
is excluded even if its confidence is 1.0 — but output coordinates may
lie outside `[0, inputWidth-1] × [0, inputHeight-1]`. -/
theorem C1_final_output_min_box_size (fexp : ℚ → ℚ)
    (layers : List (List ℚ)) (numBboxes inputW inputH : ℕ)
    (confThreshold nmsThreshold : ℚ) (batchSize : ℕ)
    (out : List NvDsInferObjectDetectionInfo)
    (hout : parseRetinaFace fexp layers numBboxes inputW inputH
        confThreshold nmsThreshold batchSize = some out)
    (o : NvDsInferObjectDetectionInfo) (ho : o ∈ out) :
    1 ≤ o.width ∧ 1 ≤ o.height := by
  unfold parseRetinaFace at hout
  by_cases hl : layers.length < 3
  · simp [hl] at hout
  · by_cases hn : numBboxes = 0
    · simp [hl, hn] at hout
    · rw [if_neg hl, if_neg hn, Option.some.injEq] at hout
      subst hout
      rcases List.mem_flatMap.mp ho with ⟨batchIdx, _, hmem⟩
      exact emitDetections_min_size _ _ o hmem

/-- Witness for C1 (amended), at the concrete 8×8 all-zero run. -/
theorem C1_witness :
    (parseRetinaFace (fun _ => 1)
        [List.replicate 8 0, List.replicate 20 0, List.replicate 4 0]
        1 8 8 (1/2) (2/5) 1 =
      some [⟨0, 1/2, -4, -4, 16, 16⟩, ⟨0, 1/2, -12, -12, 32, 32⟩] ∧
      (⟨0, 1/2, -4, -4, 16, 16⟩ : NvDsInferObjectDetectionInfo) ∈
        [(⟨0, 1/2, -4, -4, 16, 16⟩ : NvDsInferObjectDetectionInfo),
         ⟨0, 1/2, -12, -12, 32, 32⟩]) ∧
    (1 : ℚ) ≤ (16 : ℚ) ∧ (1 : ℚ) ≤ (16 : ℚ) :=
  ⟨⟨zeroRun_parse, by simp⟩,
   C1_final_output_min_box_size (fun _ => 1)
     [List.replicate 8 0, List.replicate 20 0, List.replicate 4 0]
     1 8 8 (1/2) (2/5) 1 _ zeroRun_parse ⟨0, 1/2, -4, -4, 16, 16⟩ (by simp)⟩

/-- Counterexample to C1 as stated: on the all-zero 8×8 input, the final
output contains a detection whose `left` coordinate is `-4`, outside
`[0, inputWidth-1] = [0, 7]` — the adapter never clips. -/
theorem C1_counterexample :
    parseRetinaFace (fun _ => 1)
        [List.replicate 8 0, List.replicate 20 0, List.replicate 4 0]
        1 8 8 (1/2) (2/5) 1 =
      some [⟨0, 1/2, -4, -4, 16, 16⟩, ⟨0, 1/2, -12, -12, 32, 32⟩] ∧
    ((-4 : ℚ) < 0 ∧ ¬ ((0:ℚ) ≤ -4 ∧ (-4:ℚ) ≤ 8 - 1)) :=
  ⟨zeroRun_parse, by norm_num⟩

/-! ## Anchor-grid lemmas (C3) -/

theorem ceilDiv_of_dvd (s n : ℕ) (hs : 0 < s) (h : s ∣ n) :
    ceilDiv n s = n / s := by
  obtain ⟨q, rfl⟩ := h
  unfold ceilDiv
  have h1 : s * q + s - 1 = (s - 1) + s * q := by omega
  rw [h1, Nat.add_mul_div_left _ _ hs,
    Nat.div_eq_of_lt (Nat.sub_lt hs one_pos), Nat.zero_add,
    Nat.mul_div_cancel_left q hs]

theorem center_div_featDim (c : ℚ) (s q : ℕ) (hs : 0 < s) :
    c * (s : ℚ) / ((s * q : ℕ) : ℚ) = c / (q : ℚ) := by
  rcases Nat.eq_zero_or_pos q with hq | hq
  · subst hq
    simp
  · push_cast
    rw [mul_comm (s : ℚ) (q : ℚ),
      mul_div_mul_right c (q : ℚ) (by positivity : (s : ℚ) ≠ 0)]

/-- For a stride dividing both input dimensions, the decoder's inline
prior grid for one level coincides with the spec's anchor generator for
that level (feature dims `ceil = floor`, centers
`(x+0.5)/feat = (x+0.5)*step/input`, sizes `base*(k+1) = minSize`). -/
theorem codeLevelPriors_eq_spec (W H s a b : ℕ) (hs : 0 < s)
    (hW : s ∣ W) (hH : s ∣ H) (hb : b = 2 * a) :
    codeLevelPriors W H s a = specLevelAnchors W H s [a, b] := by
  subst hb
  obtain ⟨qW, hqW⟩ := hW
  obtain ⟨qH, hqH⟩ := hH
  unfold codeLevelPriors specLevelAnchors featDim
  rw [ceilDiv_of_dvd s W hs ⟨qW, hqW⟩, ceilDiv_of_dvd s H hs ⟨qH, hqH⟩]
  refine List.flatMap_congr fun y hy => ?_
  refine List.flatMap_congr fun x hx => ?_
  have hcx : ((x : ℚ) + 1/2) / ((W / s : ℕ) : ℚ) =
      ((x : ℚ) + 1/2) * (s : ℚ) / (W : ℚ) := by
    subst hqW
    rw [Nat.mul_div_cancel_left qW hs, center_div_featDim _ s qW hs]
  have hcy : ((y : ℚ) + 1/2) / ((H / s : ℕ) : ℚ) =
      ((y : ℚ) + 1/2) * (s : ℚ) / (H : ℚ) := by
    subst hqH
    rw [Nat.mul_div_cancel_left qH hs, center_div_featDim _ s qH hs]
  show [mkPrior W H (W / s) (H / s) a x y 0, mkPrior W H (W / s) (H / s) a x y 1] =
    [specAnchor W H s a y x, specAnchor W H s (2 * a) y x]
  unfold mkPrior specAnchor
  simp only [Prior.mk.injEq, List.cons.injEq, and_true]
  refine ⟨⟨hcx, hcy, ?_, ?_⟩, hcx, hcy, ?_, ?_⟩ <;> (push_cast; ring)

/-- C3 (amended): the decoder's anchor grid uses *floor* feature-map
dimensions `inputWidth / step`, `inputHeight / step` and centers
`(j+0.5)/feat_w`, `(i+0.5)/feat_h`; whenever every step divides both
input dimensions (e.g. 640×640), this coincides exactly with the spec's
grid — `ceil` dimensions, centers `(j+0.5)*step/inputWidth` and
`(i+0.5)*step/inputHeight`, and sizes `minSize/inputWidth`,
`minSize/inputHeight` for each min-size of the level in list order
(`{16,32}, {64,128}, {256,512}`). -/
theorem C3_anchor_grid_matches_spec_on_divisible_dims (W H : ℕ)
    (hW : 32 ∣ W) (hH : 32 ∣ H) :
    codePriors W H = specAnchorGrid W H := by
  have h8W : 8 ∣ W := dvd_trans ⟨4, rfl⟩ hW
  have h8H : 8 ∣ H := dvd_trans ⟨4, rfl⟩ hH
  have h16W : 16 ∣ W := dvd_trans ⟨2, rfl⟩ hW
  have h16H : 16 ∣ H := dvd_trans ⟨2, rfl⟩ hH
  show (kStrideAnchors.flatMap fun sa => codeLevelPriors W H sa.1 sa.2) =
    ((specSteps.zip specMinSizes).flatMap fun p => specLevelAnchors W H p.1 p.2)
  rw [show kStrideAnchors = [(8, 16), (16, 64), (32, 256)] from rfl,
    show specSteps.zip specMinSizes =
      [(8, [16, 32]), (16, [64, 128]), (32, [256, 512])] from rfl]
  simp only [List.flatMap_cons, List.flatMap_nil, List.append_nil]
  rw [codeLevelPriors_eq_spec W H 8 16 32 (by norm_num) h8W h8H (by norm_num),
    codeLevelPriors_eq_spec W H 16 64 128 (by norm_num) h16W h16H (by norm_num),
    codeLevelPriors_eq_spec W H 32 256 512 (by norm_num) hW hH (by norm_num)]

/-- Witness for C3 (amended) at input size 32×32. -/
theorem C3_witness :
    ((32 : ℕ) ∣ 32) ∧ ((32 : ℕ) ∣ 32) ∧ codePriors 32 32 = specAnchorGrid 32 32 :=
  ⟨dvd_refl 32, dvd_refl 32,
   C3_anchor_grid_matches_spec_on_divisible_dims 32 32 (dvd_refl 32) (dvd_refl 32)⟩

/-- Counterexample to C3 as stated: at input size 12×8, the code's
feature-map width for stride 8 is `12 / 8 = 1`, not `ceil(12/8) = 2`,
and the code grid (2 anchors) differs from the spec's grid
(8 anchors). -/
theorem C3_counterexample :
    featDim 12 8 = 1 ∧ ceilDiv 12 8 = 2 ∧
    (codePriors 12 8).length = 2 ∧ (specAnchorGrid 12 8).length = 8 ∧
    codePriors 12 8 ≠ specAnchorGrid 12 8 := by
  refine ⟨by decide, by decide, by decide, by decide, fun h => ?_⟩
  have hlen := congrArg List.length h
  rw [show (codePriors 12 8).length = 2 from by decide,
    show (specAnchorGrid 12 8).length = 8 from by decide] at hlen
  exact absurd hlen (by decide)

/-- Inserting `x` with `orderedInsert confGE` passes only over elements
of strictly greater confidence, so filtering by any fixed confidence
value commutes with the insertion. -/
theorem filter_conf_orderedInsert (c : ℚ) (x : RetinaFaceDetection) :
    ∀ m : List RetinaFaceDetection,
      (List.orderedInsert confGE x m).filter
          (fun d => decide (d.confidence = c)) =
        if x.confidence = c then
          x :: m.filter (fun d => decide (d.confidence = c))
        else m.filter (fun d => decide (d.confidence = c)) := by
  intro m
  induction m with
  | nil =>
      by_cases hx : x.confidence = c <;>
        simp [List.orderedInsert, List.filter, hx]
  | cons b m' ih =>
      by_cases hr : confGE x b
      · by_cases hx : x.confidence = c <;>
          simp [List.orderedInsert, hr, List.filter_cons, hx]
      · have hbc : x.confidence < b.confidence := not_le.mp hr
        by_cases hx : x.confidence = c
        · have hbne : ¬ b.confidence = c := by
            intro hbeq
            exact absurd (hx ▸ hbeq ▸ hbc) (lt_irrefl _)
          simp [List.orderedInsert, hr, List.filter_cons, hx, hbne, ih]
        · by_cases hb : b.confidence = c <;>
            simp [List.orderedInsert, hr, List.filter_cons, hx, hb, ih]

/-- The insertion sort used as the `std::sort` refinement is stable:
filtering by any fixed confidence value commutes with the sort, i.e.
equal-confidence detections keep their pre-sort relative order. -/
theorem filter_conf_sortDetections (c : ℚ) :
    ∀ l : List RetinaFaceDetection,
      (sortDetections l).filter (fun d => decide (d.confidence = c)) =
        l.filter (fun d => decide (d.confidence = c)) := by
  intro l
  induction l with
  | nil => rfl
  | cons x l ih =>
      unfold sortDetections at ih
      show (List.orderedInsert confGE x (List.insertionSort confGE l)).filter _ = _
      rw [filter_conf_orderedInsert]
      by_cases hx : x.confidence = c <;>
        simp [hx, List.filter_cons, ih]

/-- C7 (amended): the suppressor sorts by confidence descending — its
sort satisfies the `std::sort` postcondition (a permutation, ordered by
the comparator) — but `std::sort` does not guarantee a stable
tie-break; under the stable insertion-sort refinement modelled here,
equal-confidence candidates do keep their original pre-sort order. -/
theorem C7_sort_descending_stable_refinement (l : List RetinaFaceDetection) :
    cppSortOk l (sortDetections l) ∧
    ∀ c : ℚ, (sortDetections l).filter (fun d => decide (d.confidence = c)) =
      l.filter (fun d => decide (d.confidence = c)) :=
  ⟨⟨List.perm_insertionSort confGE l, List.sorted_insertionSort confGE l⟩,
   fun c => filter_conf_sortDetections c l⟩

/-- Counterexample to C7 as stated: for two distinct equal-confidence
detections, the reversed order also satisfies everything the
`std::sort` call guarantees, so the code does not ensure that
equal-confidence candidates keep their original relative order. -/
theorem C7_counterexample :
    cppSortOk [⟨0, 0, 1, 1, 1/2, []⟩, ⟨5, 5, 6, 6, 1/2, []⟩]
        [⟨5, 5, 6, 6, 1/2, []⟩, ⟨0, 0, 1, 1, 1/2, []⟩] ∧
    (⟨0, 0, 1, 1, 1/2, []⟩ : RetinaFaceDetection).confidence =
      (⟨5, 5, 6, 6, 1/2, []⟩ : RetinaFaceDetection).confidence ∧
    (⟨0, 0, 1, 1, 1/2, []⟩ : RetinaFaceDetection) ≠ ⟨5, 5, 6, 6, 1/2, []⟩ := by
  refine ⟨⟨List.Perm.swap _ _ _, ?_⟩, rfl, ?_⟩
  · norm_num [List.pairwise_cons, confGE]
  · intro h
    have := congrArg RetinaFaceDetection.x1 h
    norm_num at this

/-- C8 (amended): under the stable insertion-sort refinement of
`std::sort`, `applyNMS` is idempotent — its output is sorted and
pairwise non-overlapping, so re-sorting is the identity and no kept
detection suppresses another kept detection.  (Under an unstable
`std::sort`, the list is only guaranteed up to reordering of
equal-confidence detections, see the counterexample.) -/
theorem C8_nms_idempotent (detections : List RetinaFaceDetection)
    (nmsThreshold : ℚ) :
    applyNMS (applyNMS detections nmsThreshold) nmsThreshold =
      applyNMS detections nmsThreshold := by
  have hsorted : (applyNMS detections nmsThreshold).Pairwise confGE :=
    List.Pairwise.sublist (nmsLoop_sublist' nmsThreshold _)
      (List.sorted_insertionSort confGE detections)
  show nmsLoop nmsThreshold (sortDetections (applyNMS detections nmsThreshold)) = _
  rw [show sortDetections (applyNMS detections nmsThreshold) =
      applyNMS detections nmsThreshold from
    List.Sorted.insertionSort_eq hsorted]
  exact nmsLoop_eq_self_of_pairwise nmsThreshold _ _ le_rfl
    (nmsLoop_pairwise_iou nmsThreshold _ _ le_rfl)

/-- Counterexample to C8 as stated: with two distinct non-overlapping
equal-confidence detections, a compliant `std::sort` can return the
kept list in either order, so applying `suppress` to its own output can
produce a list that is not identical to it. -/
theorem C8_counterexample :
    cppApplyNMSRel [⟨0, 0, 1, 1, 1/2, []⟩, ⟨5, 5, 6, 6, 1/2, []⟩] (2/5)
        [⟨0, 0, 1, 1, 1/2, []⟩, ⟨5, 5, 6, 6, 1/2, []⟩] ∧
    cppApplyNMSRel [⟨0, 0, 1, 1, 1/2, []⟩, ⟨5, 5, 6, 6, 1/2, []⟩] (2/5)
        [⟨5, 5, 6, 6, 1/2, []⟩, ⟨0, 0, 1, 1, 1/2, []⟩] ∧
    ([(⟨0, 0, 1, 1, 1/2, []⟩ : RetinaFaceDetection), ⟨5, 5, 6, 6, 1/2, []⟩] ≠
      [⟨5, 5, 6, 6, 1/2, []⟩, ⟨0, 0, 1, 1, 1/2, []⟩]) := by
  have hiou1 : detIoU (⟨0, 0, 1, 1, 1/2, []⟩ : RetinaFaceDetection)
      ⟨5, 5, 6, 6, 1/2, []⟩ ≤ 2/5 := by norm_num [detIoU]
  have hiou2 : detIoU (⟨5, 5, 6, 6, 1/2, []⟩ : RetinaFaceDetection)
      ⟨0, 0, 1, 1, 1/2, []⟩ ≤ 2/5 := by norm_num [detIoU]
  refine ⟨⟨_, ⟨List.Perm.refl _, ?_⟩, (nmsLoop_pair _ _ _ hiou1).symm⟩,
          ⟨_, ⟨List.Perm.swap _ _ _, ?_⟩, (nmsLoop_pair _ _ _ hiou2).symm⟩, ?_⟩
  · norm_num [List.pairwise_cons, confGE]
  · norm_num [List.pairwise_cons, confGE]
  · intro h
    have := congrArg (fun l : List RetinaFaceDetection =>
      (l.headD ⟨0, 0, 0, 0, 0, []⟩).x1) h
    norm_num at this

/-- C2 (code evaluated at the failing input): with a `loc` buffer of
length 3 and declared anchor count 1 (expected length 4), the parser
performs no length validation: it succeeds (`some`, i.e. `true`) and
produces two detections, reading past the buffer (undefined behaviour
in C, modelled as reading 0). The spec instead requires an
`InvalidBufferLength` failure with no output. -/
theorem C2_short_buffer_not_rejected :
    parseRetinaFace (fun _ => 1)
        [[0, 0, 0], List.replicate 20 0, List.replicate 4 0]
        1 8 8 (1/2) (2/5) 1 =
      some [⟨0, 1/2, -4, -4, 16, 16⟩, ⟨0, 1/2, -12, -12, 32, 32⟩] ∧
    ((3 : ℕ) < 1 * 4) := by
  constructor
  · unfold parseRetinaFace
    norm_num [List.range_succ, zeroRun_decode_shortLoc, zeroRun_nms,
      zeroRun_emit]
  · norm_num

end RetinaFace
